import Mathlib

/-!
Verification development for the widget bridge and sandbox lifecycle manager
of the mcp-use inspector.

The definitions below are shallow embeddings of the relevant source
functions:

- the CSP policy builder `buildCSPString` and its sanitizer
  (client/components/MCPAppsRenderer.tsx, lines 51-86),
- the suggested-fix computation `computeSuggestedFix` and the agent-prompt
  guard (the debug-controls component),
- the inbound window-message handler of the modern bridge
  (MCPAppsRenderer.tsx, lines 710-772),
- the `oninitialized` debounce state machine, the resend timer,
  the tool-input and tool-output push effects, and the unmount cleanup
  (MCPAppsRenderer.tsx, lines 502-539, 776-804, 836-937).

JavaScript strings are modelled as Lean `String` values (lists of
characters); JavaScript timestamps as `Nat` milliseconds; JSON values as
the inductive type `JSValue`.
-/

namespace Inspector

/-- Embedding of JavaScript `Array.prototype.join(sep)`. -/
def joinSep (sep : String) : List String → String
  | [] => ""
  | [x] => x
  | x :: y :: xs => x ++ sep ++ joinSep sep (y :: xs)

/-- Characters removed from the front and back by JavaScript
`String.prototype.trim` (whitespace; modelled with the ASCII whitespace
characters recognised by `Char.isWhitespace`). -/
def trimChars (l : List Char) : List Char :=
  ((l.dropWhile Char.isWhitespace).reverse.dropWhile Char.isWhitespace).reverse

/-- Embedding of JavaScript `String.prototype.trim`. -/
def jsTrim (s : String) : String := String.mk (trimChars s.data)

/-- The characters matched by the sanitizer character class of
`buildCSPString`: single quote, double quote, angle brackets, semicolon. -/
def bannedCSPChar (c : Char) : Bool :=
  c = '\'' || c = '"' || c = '<' || c = '>' || c = ';'

/-- Embedding of the `sanitize` closure of `buildCSPString`: a global
regex replacement of the banned character class with the empty string,
followed by trim.  A global single-character replacement with the empty
string removes every occurrence of the listed characters, hence the list
filter. -/
def sanitize (d : String) : String :=
  String.mk (trimChars (d.data.filter (fun c => !bannedCSPChar c)))

/-- Embedding of `(list || []).map(sanitize).filter(Boolean)`: sanitize every declared
domain and drop the tokens that became empty (the only falsy string is the
empty string). -/
def cleanDomains (l : List String) : List String :=
  (l.map sanitize).filter (fun d => d ≠ "")

/-- The declared CSP allowlist shape used by `buildCSPString` and
`computeSuggestedFix` (type `WidgetDeclaredCsp`).  Each field is optional
in the source (`csp.connectDomains || []`). -/
structure WidgetDeclaredCsp where
  connectDomains : Option (List String)
  resourceDomains : Option (List String)
  frameDomains : Option (List String)
  baseUriDomains : Option (List String)
deriving DecidableEq

/-- The list of directive strings assembled by `buildCSPString`
(MCPAppsRenderer.tsx lines 51-86) before the final `.join("; ")`. -/
def buildCSPDirectives (csp : WidgetDeclaredCsp) : List String :=
  let connectDomains := cleanDomains (csp.connectDomains.getD [])
  let resourceDomains := cleanDomains (csp.resourceDomains.getD [])
  let frameDomains := cleanDomains (csp.frameDomains.getD [])
  let baseUriDomains := cleanDomains (csp.baseUriDomains.getD [])
  let connectSrc :=
    if connectDomains.length > 0 then joinSep " " connectDomains else "'none'"
  let resourceSrc :=
    if resourceDomains.length > 0 then
      joinSep " " ("data:" :: "blob:" :: resourceDomains)
    else "data: blob:"
  let frameSrc :=
    if frameDomains.length > 0 then joinSep " " frameDomains else "'none'"
  let baseUri :=
    if baseUriDomains.length > 0 then joinSep " " baseUriDomains else "'none'"
  [ "default-src 'none'",
    "script-src 'unsafe-inline' " ++ resourceSrc,
    "style-src 'unsafe-inline' " ++ resourceSrc,
    "img-src " ++ resourceSrc,
    "font-src " ++ resourceSrc,
    "media-src " ++ resourceSrc,
    "connect-src " ++ connectSrc,
    "frame-src " ++ frameSrc,
    "object-src 'none'",
    "base-uri " ++ baseUri ]

/-- Embedding of `buildCSPString` (declared mode policy builder). -/
def buildCSPString (csp : WidgetDeclaredCsp) : String :=
  joinSep "; " (buildCSPDirectives csp)

/-- A declared CSP whose four domain lists have been put through the same
sanitize-and-discard-empty pass that `buildCSPString` applies.  Used to
state that the builder only ever sees the stripped forms. -/
def sanitizeCsp (csp : WidgetDeclaredCsp) : WidgetDeclaredCsp where
  connectDomains := some (cleanDomains (csp.connectDomains.getD []))
  resourceDomains := some (cleanDomains (csp.resourceDomains.getD []))
  frameDomains := some (cleanDomains (csp.frameDomains.getD []))
  baseUriDomains := some (cleanDomains (csp.baseUriDomains.getD []))

lemma dropWhile_idem (p : Char → Bool) (l : List Char) :
    (l.dropWhile p).dropWhile p = l.dropWhile p := by
  induction l with
  | nil => simp
  | cons a t ih =>
    by_cases h : p a <;> simp [List.dropWhile_cons, h, ih]

lemma dropWhile_eq_self_of_isPre (p : Char → Bool) {l l' : List Char}
    (hpre : l' <+: l) (hl : l.dropWhile p = l) : l'.dropWhile p = l' := by
  cases l' with
  | nil => simp
  | cons a t =>
    obtain ⟨rest, hrest⟩ := hpre
    have hal : l = a :: (t ++ rest) := by
      simpa using hrest.symm
    subst hal
    by_cases h : p a
    · exfalso
      rw [List.dropWhile_cons_of_pos h] at hl
      have hlen : ((t ++ rest).dropWhile p).length = (t ++ rest).length + 1 := by
        rw [hl]; simp
      have hle : ((t ++ rest).dropWhile p).length ≤ (t ++ rest).length :=
        (List.dropWhile_sublist p).length_le
      omega
    · rw [List.dropWhile_cons_of_neg h]

lemma trimChars_idem (l : List Char) : trimChars (trimChars l) = trimChars l := by
  unfold trimChars
  set ws := Char.isWhitespace with hws
  set m := l.dropWhile ws with hm
  set r := m.reverse.dropWhile ws with hr
  have hm_idem : m.dropWhile ws = m := by rw [hm]; exact dropWhile_idem ws l
  have hr_suffix : r <:+ m.reverse := by rw [hr]; exact List.dropWhile_suffix ws
  have hrrev_pre : r.reverse <+: m := by
    obtain ⟨w, hw⟩ := hr_suffix
    refine ⟨w.reverse, ?_⟩
    rw [← List.reverse_append, hw, List.reverse_reverse]
  have h1 : r.reverse.dropWhile ws = r.reverse :=
    dropWhile_eq_self_of_isPre ws hrrev_pre hm_idem
  have h2 : r.dropWhile ws = r := by rw [hr]; exact dropWhile_idem ws m.reverse
  rw [h1]
  simp [h2]

lemma mem_trimChars {c : Char} {l : List Char} (h : c ∈ trimChars l) : c ∈ l := by
  unfold trimChars at h
  rw [List.mem_reverse] at h
  have h1 := (List.dropWhile_sublist Char.isWhitespace).mem h
  rw [List.mem_reverse] at h1
  exact (List.dropWhile_sublist Char.isWhitespace).mem h1

lemma sanitize_no_banned (d : String) (c : Char) (hc : bannedCSPChar c = true) :
    c ∉ (sanitize d).data := by
  intro hmem
  unfold sanitize at hmem
  have h1 : c ∈ d.data.filter (fun c => !bannedCSPChar c) := mem_trimChars hmem
  have h2 := List.of_mem_filter h1
  simp [hc] at h2

lemma sanitize_idem (d : String) : sanitize (sanitize d) = sanitize d := by
  unfold sanitize
  congr 1
  have hdata : (String.mk (trimChars (d.data.filter (fun c => !bannedCSPChar c)))).data =
      trimChars (d.data.filter (fun c => !bannedCSPChar c)) := rfl
  rw [hdata]
  have hfilter :
      (trimChars (d.data.filter (fun c => !bannedCSPChar c))).filter
        (fun c => !bannedCSPChar c) =
      trimChars (d.data.filter (fun c => !bannedCSPChar c)) := by
    apply List.filter_eq_self.mpr
    intro c hc
    have h1 : c ∈ d.data.filter (fun c => !bannedCSPChar c) := mem_trimChars hc
    exact (List.mem_filter.mp h1).2
  rw [hfilter, trimChars_idem]

lemma cleanDomains_idem (l : List String) :
    cleanDomains (cleanDomains l) = cleanDomains l := by
  unfold cleanDomains
  have hmap : ((l.map sanitize).filter (fun d => d ≠ "")).map sanitize =
      (l.map sanitize).filter (fun d => d ≠ "") := by
    have hcongr : ((l.map sanitize).filter (fun d => d ≠ "")).map sanitize =
        ((l.map sanitize).filter (fun d => d ≠ "")).map id := by
      apply List.map_congr_left
      intro x hx
      have hx' := List.mem_of_mem_filter hx
      obtain ⟨d, _, hd⟩ := List.mem_map.mp hx'
      rw [← hd]
      exact sanitize_idem d
    rw [hcongr, List.map_id]
  rw [hmap, List.filter_filter]
  apply List.filter_congr
  intro x _
  simp

lemma cleanDomains_of_invariant (l : List String) (hne : ∀ d ∈ l, sanitize d = d ∧ d ≠ "") :
    cleanDomains l = l := by
  unfold cleanDomains
  have hmap : l.map sanitize = l := by
    have hcongr : l.map sanitize = l.map id :=
      List.map_congr_left (fun d hd => (hne d hd).1)
    rw [hcongr, List.map_id]
  rw [hmap]
  apply List.filter_eq_self.mpr
  intro d hd
  simpa using (hne d hd).2

/-- Claim C7: The policy-string builder strips the characters stripped by the
sanitizer regex from every domain token and discards tokens that become
empty before they can appear in the policy: the builder is invariant under
pre-sanitizing its input, every sanitized token is free of the characters
of the regex class, and every token surviving `cleanDomains` is a
non-empty stripped form of a declared domain. -/
theorem c7_csp_sanitization (csp : WidgetDeclaredCsp) :
    buildCSPString (sanitizeCsp csp) = buildCSPString csp
    ∧ (∀ d : String, ∀ c : Char, bannedCSPChar c = true → c ∉ (sanitize d).data)
    ∧ (∀ l : List String, ∀ d : String, d ∈ cleanDomains l →
        d ≠ "" ∧ ∃ d₀ ∈ l, d = sanitize d₀) := by
  refine ⟨?_, ?_, ?_⟩
  · simp [buildCSPString, buildCSPDirectives, sanitizeCsp, cleanDomains_idem]
  · intro d c hc
    exact sanitize_no_banned d c hc
  · intro l d hd
    unfold cleanDomains at hd
    have h1 := List.mem_of_mem_filter hd
    have h2 := List.of_mem_filter hd
    obtain ⟨d₀, hd₀, hmap⟩ := List.mem_map.mp h1
    refine ⟨by simpa using h2, d₀, hd₀, hmap.symm⟩

/-- Witness for claim C7 at a concrete declared CSP and a concrete dirty domain. -/
theorem c7_csp_sanitization_witness :
    buildCSPString
        (sanitizeCsp ⟨some ["<bad;domain>", " a.example "], some [], none, none⟩) =
      buildCSPString ⟨some ["<bad;domain>", " a.example "], some [], none, none⟩
    ∧ '<' ∉ (sanitize "<bad;domain>").data
    ∧ ("baddomain" ≠ "" ∧ ∃ d₀ ∈ ["<bad;domain>"], "baddomain" = sanitize d₀) :=
  ⟨(c7_csp_sanitization ⟨some ["<bad;domain>", " a.example "], some [], none, none⟩).1,
   (c7_csp_sanitization ⟨none, none, none, none⟩).2.1 "<bad;domain>" '<' (by decide),
   (c7_csp_sanitization ⟨none, none, none, none⟩).2.2 ["<bad;domain>"] "baddomain"
     (by decide)⟩

/-- Claim C8: In the built policy, the connect-src directive (position 6 of
the directive list) is the quoted none keyword when the
declared connect list is empty or absent, and is exactly the declared
origins joined by single spaces when the declared list is a non-empty list
of origins (tokens that the sanitizer leaves unchanged and that are
non-empty). -/
theorem c8_connect_src (csp : WidgetDeclaredCsp) :
    buildCSPString csp = joinSep "; " (buildCSPDirectives csp)
    ∧ (csp.connectDomains.getD [] = [] →
        (buildCSPDirectives csp)[6]? = some "connect-src 'none'")
    ∧ (∀ l : List String, csp.connectDomains = some l → l ≠ [] →
        (∀ d ∈ l, sanitize d = d ∧ d ≠ "") →
        (buildCSPDirectives csp)[6]? = some ("connect-src " ++ joinSep " " l)) := by
  refine ⟨rfl, ?_, ?_⟩
  · intro hempty
    simp [buildCSPDirectives, hempty, cleanDomains]
  · intro l hsome hne hinv
    have hclean : cleanDomains (csp.connectDomains.getD []) = l := by
      rw [hsome]
      exact cleanDomains_of_invariant l hinv
    have hlen : 0 < l.length := List.length_pos.mpr hne
    simp [buildCSPDirectives, hclean, hlen]

/-- Witness for claim C8: an empty declared connect list and a two-origin one. -/
theorem c8_connect_src_witness :
    (buildCSPDirectives ⟨some [], none, none, none⟩)[6]? = some "connect-src 'none'"
    ∧ (buildCSPDirectives
        ⟨some ["https://a.example", "https://b.example"], none, none, none⟩)[6]? =
        some ("connect-src " ++ joinSep " " ["https://a.example", "https://b.example"]) :=
  ⟨(c8_connect_src ⟨some [], none, none, none⟩).2.1 (by decide),
   (c8_connect_src ⟨some ["https://a.example", "https://b.example"], none, none, none⟩).2.2
     ["https://a.example", "https://b.example"] rfl (by decide) (by decide)⟩

/-- First occurrence split: returns the part before the first occurrence of
`pat` and the part after it, or `none` when `pat` does not occur. -/
def splitAtSub (pat : List Char) : List Char → Option (List Char × List Char)
  | [] => if pat = [] then some ([], []) else none
  | c :: rest =>
    if pat.isPrefixOf (c :: rest) then some ([], (c :: rest).drop pat.length)
    else
      match splitAtSub pat rest with
      | some (pre, post) => some (c :: pre, post)
      | none => none

/-- Model of the browser `new URL(uri).origin` for the inputs relevant to
the suggested-fix computation: a hierarchical `scheme://authority/...` URL
yields `scheme://authority` (authority up to the first `/`, `?` or `#`;
userinfo and default-port normalisation are not modelled); a URL with a
scheme but no `://` (for example `mailto:`) parses with the opaque origin
string `"null"`; a string without any scheme fails to parse (the URL
constructor throws, modelled as `none`). -/
def parseOrigin (uri : String) : Option String :=
  match splitAtSub "://".data uri.data with
  | some (schemeChars, restChars) =>
    let scheme := String.mk schemeChars
    let host := String.mk (restChars.takeWhile (fun c => c ≠ '/' && c ≠ '?' && c ≠ '#'))
    if scheme = "" || host = "" then none
    else some (scheme ++ "://" ++ host)
  | none =>
    match splitAtSub [':'] uri.data with
    | some (schemeChars, _) => if schemeChars = [] then none else some "null"
    | none => none

/-- One observed CSP violation record (type `CspViolation`); the fields the
suggested-fix computation reads are `directive`, `effectiveDirective` and
`blockedUri` (absent strings are modelled as `""`). -/
structure CspViolation where
  directive : String
  effectiveDirective : String
  blockedUri : String
  sourceFile : Option String
  lineNumber : Option Nat
  columnNumber : Option Nat
  originalPolicy : Option String
  timestamp : Nat
deriving DecidableEq

/-- JavaScript `a || b` on strings: the only falsy string is `""`. -/
def jsOrStr (a b : String) : String := if a = "" then b else a

/-- JavaScript `String.prototype.toLowerCase` (character-wise). -/
def jsToLower (s : String) : String := String.mk (s.data.map Char.toLower)

/-- JavaScript `String.prototype.startsWith`. -/
def strStartsWith (s pat : String) : Bool := pat.data.isPrefixOf s.data

/-- The skip condition of the `computeSuggestedFix` loop: empty, inline,
blob or data blocked URIs are not addable to an allowlist. -/
def isSkippableViolation (v : CspViolation) : Bool :=
  let uri := jsTrim v.blockedUri
  uri = "" || uri = "(inline)" || strStartsWith uri "blob:" || strStartsWith uri "data:"

/-- JavaScript `Set.prototype.add` on an insertion-ordered set modelled as
a duplicate-free list. -/
def insertSet (x : String) (l : List String) : List String :=
  if x ∈ l then l else l ++ [x]

/-- Embedding of `new Set(array)`: deduplicate preserving first occurrences. -/
def setOfList (l : List String) : List String :=
  l.foldl (fun acc x => insertSet x acc) []

/-- One iteration of the `for (const v of violations)` loop of
`computeSuggestedFix`, acting on the triple
(connectSet, resourceSet, frameSet).  JavaScript `String.replace` with a
string pattern replaces only the first occurrence; under the `startsWith`
guard that occurrence is the leading scheme, hence the explicit
scheme-swap. -/
def stepViolation (acc : List String × List String × List String) (v : CspViolation) :
    List String × List String × List String :=
  if isSkippableViolation v then acc
  else
    let uri := jsTrim v.blockedUri
    match parseOrigin uri with
    | none => acc
    | some origin =>
      if origin = "" then acc
      else
        let dir := jsToLower (jsOrStr v.effectiveDirective v.directive)
        if dir = "connect-src" then
          let c1 := insertSet origin acc.1
          let c2 :=
            if strStartsWith origin "http://" then
              insertSet ("ws://" ++ String.mk (origin.data.drop 7)) c1
            else if strStartsWith origin "https://" then
              insertSet ("wss://" ++ String.mk (origin.data.drop 8)) c1
            else c1
          (c2, acc.2.1, acc.2.2)
        else if dir ∈ ["script-src", "style-src", "img-src", "font-src", "media-src"] then
          (acc.1, insertSet origin acc.2.1, acc.2.2)
        else if dir = "frame-src" then
          (acc.1, acc.2.1, insertSet origin acc.2.2)
        else acc

/-- JavaScript `Array.from(set).sort()`: lexicographic sort (insertion sort
is extensionally the unique sorted arrangement for the duplicate-free
lists produced by the set operations). -/
def sortStrings (l : List String) : List String := List.insertionSort (· ≤ ·) l

/-- Result shape of `computeSuggestedFix` (`frameDomains` is present only
when the frame set is non-empty). -/
structure SuggestedFix where
  connectDomains : List String
  resourceDomains : List String
  frameDomains : Option (List String)
deriving DecidableEq

/-- The initial (connectSet, resourceSet, frameSet) triple of
`computeSuggestedFix`: `new Set(currentDeclared?.xxxDomains ?? [])`. -/
def suggestInit (currentDeclared : Option WidgetDeclaredCsp) :
    List String × List String × List String :=
  (setOfList ((currentDeclared.bind (fun c => c.connectDomains)).getD []),
   setOfList ((currentDeclared.bind (fun c => c.resourceDomains)).getD []),
   setOfList ((currentDeclared.bind (fun c => c.frameDomains)).getD []))

/-- Embedding of `computeSuggestedFix(violations, currentDeclared)`. -/
def computeSuggestedFix (violations : List CspViolation)
    (currentDeclared : Option WidgetDeclaredCsp) : SuggestedFix :=
  let res := violations.foldl stepViolation (suggestInit currentDeclared)
  ⟨sortStrings res.1, sortStrings res.2.1,
   if res.2.2.length > 0 then some (sortStrings res.2.2) else none⟩

/-- The guard of the agent CSP-fix prompt computation and of its UI
section: `cspViolations.length > -1`, with the length compared as a
JavaScript number (an integer). -/
def agentPromptGuard (cspViolations : List CspViolation) : Bool :=
  decide ((cspViolations.length : Int) > -1)

/-- Claim C10: The agent CSP-fix prompt guard is true for every violation
list, including the empty one: a list length is never negative, so the
comparison with -1 never fails. -/
theorem c10_agent_prompt_guard :
    agentPromptGuard [] = true
    ∧ ∀ violations : List CspViolation, agentPromptGuard violations = true := by
  constructor
  · decide
  · intro violations
    unfold agentPromptGuard
    simp only [decide_eq_true_eq]
    omega

/-- JSON-like JavaScript values (the payloads exchanged with the widget). -/
inductive JSValue where
  | null : JSValue
  | bool : Bool → JSValue
  | num : Int → JSValue
  | str : String → JSValue
  | arr : List JSValue → JSValue
  | obj : List (String × JSValue) → JSValue

/-- Minimal JSON string escaping (quote and backslash). -/
def escapeJson (s : String) : String :=
  String.mk ((s.data.map fun c =>
    if c = '"' then ['\\', '"'] else if c = '\\' then ['\\', '\\'] else [c]).flatten)

mutual

/-- Deterministic model of `JSON.stringify` on `JSValue` (object fields in
declaration order, no whitespace). -/
def stringify : JSValue → String
  | .null => "null"
  | .bool b => if b then "true" else "false"
  | .num n => toString n
  | .str s => "\"" ++ escapeJson s ++ "\""
  | .arr vs => "[" ++ stringifyItems vs ++ "]"
  | .obj fs => "\x7b" ++ stringifyFields fs ++ "\x7d"

def stringifyItems : List JSValue → String
  | [] => ""
  | [v] => stringify v
  | v :: w :: vs => stringify v ++ "," ++ stringifyItems (w :: vs)

def stringifyFields : List (String × JSValue) → String
  | [] => ""
  | [(k, v)] => "\"" ++ escapeJson k ++ "\":" ++ stringify v
  | (k, v) :: f :: fs =>
    "\"" ++ escapeJson k ++ "\":" ++ stringify v ++ "," ++ stringifyFields (f :: fs)

end

/-- JavaScript truthiness of a JSON value. -/
def jsTruthy : JSValue → Bool
  | .null => false
  | .bool b => b
  | .num n => n ≠ 0
  | .str s => s ≠ ""
  | .arr _ => true
  | .obj _ => true

/-- Property access `v?.k`: `some` for an object field, `none` otherwise
(JavaScript undefined). -/
def jsGet (v : JSValue) (k : String) : Option JSValue :=
  match v with
  | .obj fs => (fs.find? (fun p => p.1 = k)).map (fun p => p.2)
  | _ => none

/-- JavaScript nullish coalescing `a ?? d` where `a` is an optional
property access: null and undefined fall back to `d`. -/
def jsCoalesce (a : Option JSValue) (d : JSValue) : JSValue :=
  match a with
  | some .null => d
  | some v => v
  | none => d

/-- Is `a` an optional property access whose value is the string `s`
(the test `x === "s"` after `typeof` narrowing)? -/
def jsIsStr (a : Option JSValue) (s : String) : Bool :=
  match a with
  | some (.str t) => t = s
  | _ => false

/-- The two dedupe refs of the tool-input push effect
(`toolInputSentRef`, `lastSentPropsRef`). -/
structure SendInputState where
  toolInputSent : Option String
  lastSentProps : Option String
deriving DecidableEq

/-- One run of the tool-input push effect (MCPAppsRenderer.tsx lines
836-887) for the non-streaming path.  `mergedArgs` is the merged
`(toolInput, parsed customProps)` object the effect computes; the guard
`initCount = 0` models `!bridge || initCount === 0`.  Returns the updated
refs and whether `bridge.sendToolInput` was invoked.  (The streaming
branch defers the identical send and ref updates to an animation frame.) -/
def sendToolInputStep (toolCallId : String) (initCount : Nat) (mergedArgs : JSValue)
    (st : SendInputState) : SendInputState × Bool :=
  if initCount = 0 then (st, false)
  else
    let propsKey := stringify mergedArgs
    let sentKey := toolCallId ++ ":" ++ toString initCount
    if st.toolInputSent = some sentKey ∧ st.lastSentProps = some propsKey then
      (st, false)
    else
      (⟨some sentKey, some propsKey⟩, true)

/-- The `customProps ?? null` component of the tool-output dedupe key. -/
def customPropsJson (customProps : Option (List (String × String))) : JSValue :=
  match customProps with
  | some cp => .obj (cp.map fun p => (p.1, .str p.2))
  | none => .null

/-- The `contentKey` of the tool-output push effect:
`JSON.stringify({ content: structuredContent ?? toolOutput,
customProps: customProps ?? null })`. -/
def outputContentKey (toolOutput : JSValue)
    (customProps : Option (List (String × String))) : String :=
  stringify (.obj
    [("content", jsCoalesce (jsGet toolOutput "structuredContent") toolOutput),
     ("customProps", customPropsJson customProps)])

/-- One run of the tool-output push effect (MCPAppsRenderer.tsx lines
891-937).  The ref is `lastSentToolOutputKeyRef`; the guard
`initCount = 0` models `!bridge || initCount === 0` and the truthiness
guard models `if (toolOutput)`.  Returns the updated ref and whether
`bridge.sendToolResult` was invoked. -/
def sendToolOutputStep (initCount : Nat) (toolOutput : JSValue)
    (customProps : Option (List (String × String))) (lastSentKey : Option String) :
    Option String × Bool :=
  if initCount = 0 then (lastSentKey, false)
  else if !jsTruthy toolOutput then (lastSentKey, false)
  else if lastSentKey = some (outputContentKey toolOutput customProps) then
    (lastSentKey, false)
  else (some (outputContentKey toolOutput customProps), true)

/-- The per-widget lifecycle state touched by `bridge.oninitialized`:
`lastInitTimeRef`, the pending deferred-resend timer (`resendTimerRef`,
recorded as its scheduled fire time) and the `initCount` React state. -/
structure BridgeState where
  lastInitTime : Nat
  timer : Option Nat
  initCount : Nat
deriving DecidableEq

/-- State after the bridge effect runs: `lastInitTimeRef.current = 0`, no
pending timer, `setInitCount(0)`. -/
def initBridgeState : BridgeState := ⟨0, none, 0⟩

/-- Embedding of `bridge.oninitialized` (MCPAppsRenderer.tsx lines
502-539) at wall-clock time `t` (ms).  Within 2000 ms of the last genuine
announcement the handler only clears and re-arms the 300 ms deferred
resend timer; otherwise the announcement is genuine: the timestamp is
recorded and `initCount` incremented (the pending timer, if any, is not
touched on this branch). -/
def oninitialized (t : Nat) (st : BridgeState) : BridgeState :=
  if 0 < st.lastInitTime ∧ t - st.lastInitTime < 2000 then
    { st with timer := some (t + 300) }
  else
    { st with lastInitTime := t, initCount := st.initCount + 1 }

/-- Event-loop timer semantics: a pending `setTimeout` whose scheduled
time has been reached fires (its fire time is recorded) before the next
announcement is processed. -/
def fireDue (t : Nat) (st : BridgeState) : BridgeState × List Nat :=
  match st.timer with
  | some f => if f ≤ t then ({ st with timer := none }, [f]) else (st, [])
  | none => (st, [])

/-- Run of the lifecycle machine over a time-ordered list of "initialized"
announcements: before each announcement any due timer fires, then the
announcement is handled; after the last announcement a still-pending timer
eventually fires.  Returns the final state and the list of deferred-resend
fire times (each fire sends the merged tool input and, when present, the
tool output, per the `setTimeout` body of `oninitialized`). -/
def runInit : BridgeState → List Nat → BridgeState × List Nat
  | st, [] =>
    match st.timer with
    | some f => ({ st with timer := none }, [f])
    | none => (st, [])
  | st, t :: ts =>
    let p := fireDue t st
    let q := runInit (oninitialized t p.1) ts
    (q.1, p.2 ++ q.2)

/-- Outcome of the guest answering the `teardownResource` release call:
it settles successfully after `t` ms, settles with an error after `t` ms,
or never settles. -/
inductive TeardownOutcome where
  | resolves (t : Nat)
  | rejects (t : Nat)
  | pending
deriving DecidableEq

/-- Embedding of `Promise.race([bridge.teardownResource({}), timeout(2000)])`: elapsed
wait (ms) and whether the release call won the race successfully. -/
def raceTeardown : TeardownOutcome → Nat × Bool
  | .resolves t => if t < 2000 then (t, true) else (2000, false)
  | .rejects t => if t < 2000 then (t, false) else (2000, false)
  | .pending => (2000, false)

/-- Observable teardown actions of the bridge effect cleanup. -/
inductive CleanupStep where
  | cancelResendTimer
  | detachListener
  | releaseResources (elapsed : Nat) (ok : Bool)
  | closeTransport
deriving DecidableEq

/-- Embedding of the bridge effect cleanup (MCPAppsRenderer.tsx lines
776-804): reset `lastInitTimeRef`, `clearTimeout(resendTimerRef)`, detach
the window listener, then race the release-resources call against a
2000 ms timeout, swallow any rejection or timeout (`catch` is empty), and
close the transport in the `finally` block regardless of the outcome. -/
def cleanupBridge (st : BridgeState) (out : TeardownOutcome) :
    BridgeState × List CleanupStep :=
  let race := raceTeardown out
  ({ st with lastInitTime := 0, timer := none },
   [.cancelResendTimer, .detachListener,
    .releaseResources race.1 race.2, .closeTransport])

/-- An inbound `window` message event as seen by `handleMessage`: origin,
an identity token for `event.source` (the posting window object), and the
structured payload. -/
structure InboundEvent where
  origin : String
  source : Nat
  data : JSValue

/-- Side effects `handleMessage` can perform: forward an error to the
ancestor page, publish to the RPC log bus, hand the payload to the bridge
transport. -/
inductive HostEffect where
  | postParentWidgetError (message : String) (stack : Option String)
      (toolId : String) (url : String)
  | publishRpcLog (payload : JSValue)
  | forwardToTransport (payload : JSValue)

/-- Embedding of the `handleMessage` window listener of the modern bridge
(MCPAppsRenderer.tsx lines 710-772).  `contentWindowId` is the identity of
the iframe contentWindow captured at bridge creation; `parentDiffers`
models `window.parent !== window`; `hasOnMessage` models
`customTransport.onmessage` being set.  The handler performs no state
writes; its behaviour is fully described by the returned effect list. -/
def handleMessage (iframeSrc : String) (contentWindowId : Nat) (parentDiffers : Bool)
    (hasOnMessage : Bool) (toolCallId resourceUri : String) (ev : InboundEvent) :
    List HostEffect :=
  let proxyOrigin := (parseOrigin iframeSrc).getD ""
  if ev.origin ≠ proxyOrigin then []
  else if ev.source ≠ contentWindowId then []
  else if jsIsStr (jsGet ev.data "type") "iframe-console-log" then
    if jsIsStr (jsGet ev.data "level") "error" && parentDiffers then
      let args := match jsGet ev.data "args" with
        | some (.arr a) => a
        | _ => []
      let message := match args.head? with
        | some (.str s) => s
        | some v =>
          match jsGet v "message" with
          | some (.str m) => m
          | _ => "MCP Apps iframe runtime error"
        | none => "MCP Apps iframe runtime error"
      let stack := match args.head? with
        | some v =>
          match (jsGet v "error").bind (fun e => jsGet e "stack") with
          | some (.str s) => some s
          | _ =>
            match jsGet v "stack" with
            | some (.str s) => some s
            | _ => none
        | none => none
      let url := match jsGet ev.data "url" with
        | some (.str u) => u
        | _ => resourceUri
      [.postParentWidgetError message stack toolCallId url]
    else []
  else
    .publishRpcLog ev.data ::
      (if hasOnMessage && jsTruthy ev.data then [.forwardToTransport ev.data] else [])

/-- Claim C1: An inbound window message whose origin differs from the
sandbox proxy origin derived from the iframe src, or whose source is not
the captured iframe contentWindow, has no effect: nothing is logged to the
RPC bus, nothing is forwarded to the bridge transport, no error is posted
to the ancestor page, and no widget state changes. -/
theorem c1_origin_source_guard (iframeSrc : String) (contentWindowId : Nat)
    (parentDiffers hasOnMessage : Bool) (toolCallId resourceUri : String)
    (ev : InboundEvent)
    (h : ev.origin ≠ (parseOrigin iframeSrc).getD "" ∨ ev.source ≠ contentWindowId) :
    handleMessage iframeSrc contentWindowId parentDiffers hasOnMessage
      toolCallId resourceUri ev = [] := by
  unfold handleMessage
  rcases h with h | h
  · simp [h]
  · by_cases ho : ev.origin = (parseOrigin iframeSrc).getD ""
    · simp [ho, h]
    · simp [ho]

/-- Witness for claim C1: a message from a foreign origin (and, separately, from
the right origin but a different source window) is dropped. -/
theorem c1_origin_source_guard_witness :
    handleMessage "https://proxy.example/frame" 7 true true "call-1" "ui://widget"
      ⟨"https://evil.example", 7, .null⟩ = []
    ∧ handleMessage "https://proxy.example/frame" 7 true true "call-1" "ui://widget"
      ⟨"https://proxy.example", 9, .null⟩ = [] :=
  ⟨c1_origin_source_guard "https://proxy.example/frame" 7 true true "call-1" "ui://widget"
      ⟨"https://evil.example", 7, .null⟩ (Or.inl (by decide)),
   c1_origin_source_guard "https://proxy.example/frame" 7 true true "call-1" "ui://widget"
      ⟨"https://proxy.example", 9, .null⟩ (Or.inr (by decide))⟩

/-- Claim C6: On unmount the cleanup cancels the pending debounce/resend
timer before anything else, issues the release-resources call bounded by a
2000 ms race, swallows its error or timeout, and always closes the
transport afterwards; after cleanup no timer is pending, so no late
deferred resend can ever fire. -/
theorem c6_teardown (st : BridgeState) (out : TeardownOutcome) :
    ((cleanupBridge st out).1).timer = none
    ∧ ((cleanupBridge st out).1).lastInitTime = 0
    ∧ (∀ t, (fireDue t (cleanupBridge st out).1).2 = [])
    ∧ (cleanupBridge st out).2 =
        [.cancelResendTimer, .detachListener,
         .releaseResources (raceTeardown out).1 (raceTeardown out).2, .closeTransport]
    ∧ (raceTeardown out).1 ≤ 2000
    ∧ (cleanupBridge st out).2.getLast? = some .closeTransport := by
  refine ⟨rfl, rfl, ?_, rfl, ?_, ?_⟩
  · intro t
    simp [cleanupBridge, fireDue]
  · cases out <;> simp [raceTeardown] <;> split <;> omega
  · rfl

lemma runInit_genuine (ts : List Nat) : ∀ st : BridgeState, st.timer = none →
    List.Chain (fun a b => a + 2000 < b) st.lastInitTime ts →
    (runInit st ts).1.initCount = st.initCount + ts.length
    ∧ (runInit st ts).1.timer = none := by
  induction ts with
  | nil =>
    intro st htimer _
    constructor <;> simp [runInit, htimer]
  | cons t ts ih =>
    intro st htimer hchain
    rcases hchain with _ | ⟨hgap, hchain'⟩
    have hguard : ¬ (0 < st.lastInitTime ∧ t - st.lastInitTime < 2000) := by omega
    have hstep : oninitialized t st =
        { st with lastInitTime := t, initCount := st.initCount + 1 } := by
      unfold oninitialized
      rw [if_neg hguard]
    have hfire : fireDue t st = (st, []) := by
      unfold fireDue
      rw [htimer]
    have hrec := ih { st with lastInitTime := t, initCount := st.initCount + 1 }
      htimer (by simpa using hchain')
    simp only [runInit, hfire, hstep]
    refine ⟨?_, hrec.2⟩
    rw [hrec.1]
    simp only [List.length_cons]
    omega

/-- Claim C4: For every sequence of "initialized" announcements whose
consecutive elements are strictly more than 2000 ms apart, each
announcement is genuine: starting from the fresh bridge state, after the
run `initCount` equals the number of announcements (one increment per
announcement). -/
theorem c4_spaced_announcements (ts : List Nat)
    (h : List.Chain' (fun a b => a + 2000 < b) ts) :
    (runInit initBridgeState ts).1.initCount = ts.length := by
  cases ts with
  | nil => rfl
  | cons t ts' =>
    have hchain : List.Chain (fun a b => a + 2000 < b) t ts' := h
    have hfire : fireDue t initBridgeState = (initBridgeState, []) := rfl
    have hstep : oninitialized t initBridgeState = ⟨t, none, 1⟩ := by
      unfold oninitialized initBridgeState
      rw [if_neg (by simp)]
    have hrec := runInit_genuine ts' ⟨t, none, 1⟩ rfl (by simpa using hchain)
    simp only [runInit, hfire, hstep]
    rw [hrec.1]
    simp only [List.length_cons]
    omega

/-- Witness for claim C4: three announcements more than 2000 ms apart yield
`initCount = 3`. -/
theorem c4_spaced_announcements_witness :
    (runInit initBridgeState [10, 3000, 6000]).1.initCount = [10, 3000, 6000].length :=
  c4_spaced_announcements [10, 3000, 6000]
    (by simp [List.chain'_cons, List.chain_cons])

/-- Counterexample for claim C3: The claim quantifies over bursts in which each
announcement is within 2000 ms of the one before it and asserts a single
deferred resend 300 ms after the last announcement.  The run
1000, 1500, 2400 satisfies that spacing, yet the timer armed at 1500 fires
at 1800 (before 2400 arrives), so two deferred resends occur, at 1800 and
2700 — not exactly one at 2400 + 300. -/
theorem c3_counterexample :
    List.Chain' (fun a b => a ≤ b ∧ b - a < 2000) [1000, 1500, 2400]
    ∧ (runInit initBridgeState [1000, 1500, 2400]).2 = [1800, 2700]
    ∧ (runInit initBridgeState [1000, 1500, 2400]).2 ≠ [2400 + 300] := by
  refine ⟨?_, by decide, by decide⟩
  simp [List.chain'_cons, List.chain_cons]

lemma runInit_burst (ts : List Nat) : ∀ (st : BridgeState) (t₁ : Nat),
    st.timer = some (t₁ + 300) → 0 < st.lastInitTime →
    (∀ t ∈ ts, t - st.lastInitTime < 2000) →
    List.Chain (fun a b => a ≤ b ∧ b - a < 300) t₁ ts →
    runInit st ts = ({ st with timer := none }, [(t₁ :: ts).getLast (by simp) + 300]) := by
  induction ts with
  | nil =>
    intro st t₁ htimer _ _ _
    simp [runInit, htimer]
  | cons t ts ih =>
    intro st t₁ htimer hpos hwin hchain
    rcases hchain with _ | ⟨⟨hle, hgap⟩, hchain'⟩
    have hfire : fireDue t st = (st, []) := by
      simp only [fireDue, htimer]
      rw [if_neg (by omega)]
    have hdeb : oninitialized t st = { st with timer := some (t + 300) } := by
      unfold oninitialized
      rw [if_pos ⟨hpos, hwin t (List.mem_cons_self t ts)⟩]
    have hrec := ih { st with timer := some (t + 300) } t rfl hpos
      (fun x hx => hwin x (List.mem_cons_of_mem t hx)) hchain'
    simp only [runInit, hfire, hdeb, hrec]
    simp [List.getLast_cons]

/-- Claim C3 amended: For every burst of repeated "initialized"
announcements that follows a genuine announcement — each burst
announcement within 2000 ms of the last genuine announcement time and
within 300 ms of (and not before) the previous burst announcement —
exactly one deferred resend occurs, firing 300 ms after the last
announcement of the burst; each announcement re-arms the single 300 ms
timer, `initCount` is not incremented, and the state is left exactly as it
was before the burst. -/
theorem c3_burst_amended (st : BridgeState) (t₁ : Nat) (ts : List Nat)
    (htimer : st.timer = none) (hpos : 0 < st.lastInitTime)
    (hwin : ∀ t ∈ t₁ :: ts, t - st.lastInitTime < 2000)
    (hchain : List.Chain (fun a b => a ≤ b ∧ b - a < 300) t₁ ts) :
    runInit st (t₁ :: ts) = (st, [(t₁ :: ts).getLast (by simp) + 300]) := by
  have hfire : fireDue t₁ st = (st, []) := by
    unfold fireDue
    rw [htimer]
  have hdeb : oninitialized t₁ st = { st with timer := some (t₁ + 300) } := by
    unfold oninitialized
    rw [if_pos ⟨hpos, hwin t₁ (List.mem_cons_self t₁ ts)⟩]
  have hrec := runInit_burst ts { st with timer := some (t₁ + 300) } t₁ rfl hpos
    (fun x hx => hwin x (List.mem_cons_of_mem t₁ hx)) hchain
  have hst : ({ st with timer := none } : BridgeState) = st := by
    cases st
    simp_all
  simp only [runInit, hfire, hdeb, hrec]
  rw [hst]
  cases ts with
  | nil => rfl
  | cons t ts' => simp [List.getLast_cons]

/-- Witness for claim C3: genuine announcement already recorded at 1000 ms, burst
at 1500 and 1700 ms; the single resend fires at 2000 ms and the state is
unchanged. -/
theorem c3_burst_amended_witness :
    runInit ⟨1000, none, 1⟩ [1500, 1700] = (⟨1000, none, 1⟩, [2000]) := by
  have h := c3_burst_amended ⟨1000, none, 1⟩ 1500 [1700] rfl (by decide)
    (by intro t ht; fin_cases ht <;> decide)
    (by simp [List.chain_cons])
  simpa using h

/-- Decimal value parsed back from a digit list (left fold). -/
def digitsVal (l : List Char) : Nat :=
  l.foldl (fun a c => 10 * a + (c.toNat - 48)) 0

lemma digitsVal_append_singleton (l : List Char) (c : Char) :
    digitsVal (l ++ [c]) = 10 * digitsVal l + (c.toNat - 48) := by
  unfold digitsVal
  rw [List.foldl_append]
  rfl

lemma digitChar_val (m : Nat) (h : m < 10) : (Nat.digitChar m).toNat - 48 = m := by
  interval_cases m <;> decide

lemma toDigitsCore_spec : ∀ fuel n : Nat, ∀ acc : List Char, n < fuel →
    ∃ ds : List Char, Nat.toDigitsCore 10 fuel n acc = ds ++ acc ∧ digitsVal ds = n := by
  intro fuel
  induction fuel with
  | zero => intro n acc h; omega
  | succ fuel ih =>
    intro n acc h
    by_cases hdiv : n / 10 = 0
    · refine ⟨[Nat.digitChar (n % 10)], ?_, ?_⟩
      · simp [Nat.toDigitsCore, hdiv]
      · have hlt : n < 10 := by omega
        unfold digitsVal
        simp only [List.foldl_cons, List.foldl_nil]
        rw [digitChar_val (n % 10) (by omega)]
        omega
    · have hlt : n / 10 < fuel := by
        have h1 : n / 10 < n := Nat.div_lt_self (by omega) (by norm_num)
        omega
      obtain ⟨ds, hds, hval⟩ := ih (n / 10) (Nat.digitChar (n % 10) :: acc) hlt
      refine ⟨ds ++ [Nat.digitChar (n % 10)], ?_, ?_⟩
      · simp only [Nat.toDigitsCore, hdiv, if_false]
        rw [hds]
        simp
      · rw [digitsVal_append_singleton, hval, digitChar_val (n % 10) (by omega)]
        omega

lemma natRepr_injective {m n : Nat} (h : Nat.repr m = Nat.repr n) : m = n := by
  have h' : Nat.toDigits 10 m = Nat.toDigits 10 n := by
    have hd := congrArg String.data h
    simpa [Nat.repr, List.asString] using hd
  obtain ⟨ds₁, hd₁, hv₁⟩ := toDigitsCore_spec (m + 1) m [] (by omega)
  obtain ⟨ds₂, hd₂, hv₂⟩ := toDigitsCore_spec (n + 1) n [] (by omega)
  unfold Nat.toDigits at h'
  rw [hd₁, hd₂] at h'
  simp only [List.append_nil] at h'
  rw [← hv₁, ← hv₂, h']

lemma natToString_injective {m n : Nat} (h : (toString m : String) = toString n) :
    m = n :=
  natRepr_injective h

lemma sentKey_injective (tid : String) {m n : Nat}
    (h : tid ++ ":" ++ toString m = tid ++ ":" ++ toString n) : m = n := by
  apply natToString_injective
  have hd := congrArg String.data h
  simp only [String.data_append] at hd
  have hd' := List.append_cancel_left hd
  have hmk : (toString m : String) = String.mk (toString m : String).data := rfl
  rw [hmk, hd']

/-- After one run of the tool-input push effect at a non-zero epoch, the
identity ref holds the key of that epoch (whether or not the run sent). -/
lemma sendToolInputStep_key (tid : String) (n : Nat) (args : JSValue)
    (st : SendInputState) (hn : n ≠ 0) :
    (sendToolInputStep tid n args st).1.toolInputSent =
      some (tid ++ ":" ++ toString n) := by
  unfold sendToolInputStep
  rw [if_neg hn]
  by_cases hc : st.toolInputSent = some (tid ++ ":" ++ toString n)
      ∧ st.lastSentProps = some (stringify args)
  · rw [if_pos hc]
    exact hc.1
  · rw [if_neg hc]

/-- Claim C5: The tool-input push is idempotent per epoch: from a state that
has not yet sent for the `(toolCallId, initCount)` identity key, sending a
merged payload transmits once, records both the identity key and the
serialized-payload key, and an immediately repeated send of the same
payload under the same `(toolCallId, initCount)` is skipped because both
recorded keys match. -/
theorem c5_input_idempotent_per_epoch (toolCallId : String) (initCount : Nat)
    (mergedArgs : JSValue) (st : SendInputState) (hn : initCount ≠ 0)
    (hfresh : st.toolInputSent ≠ some (toolCallId ++ ":" ++ toString initCount)) :
    (sendToolInputStep toolCallId initCount mergedArgs st).2 = true
    ∧ (sendToolInputStep toolCallId initCount mergedArgs
        (sendToolInputStep toolCallId initCount mergedArgs st).1).2 = false
    ∧ (sendToolInputStep toolCallId initCount mergedArgs st).1.toolInputSent =
        some (toolCallId ++ ":" ++ toString initCount)
    ∧ (sendToolInputStep toolCallId initCount mergedArgs st).1.lastSentProps =
        some (stringify mergedArgs) := by
  have hcond : ¬ (st.toolInputSent = some (toolCallId ++ ":" ++ toString initCount)
      ∧ st.lastSentProps = some (stringify mergedArgs)) :=
    fun hc => hfresh hc.1
  have hfirst : sendToolInputStep toolCallId initCount mergedArgs st =
      (⟨some (toolCallId ++ ":" ++ toString initCount),
        some (stringify mergedArgs)⟩, true) := by
    unfold sendToolInputStep
    rw [if_neg hn, if_neg hcond]
  refine ⟨by rw [hfirst], ?_, by rw [hfirst], by rw [hfirst]⟩
  rw [hfirst]
  unfold sendToolInputStep
  rw [if_neg hn, if_pos ⟨rfl, rfl⟩]

/-- Witness for claim C5 at a concrete payload and fresh state. -/
theorem c5_input_idempotent_per_epoch_witness :
    (sendToolInputStep "call-1" 1 (.obj [("a", .num 1)]) ⟨none, none⟩).2 = true
    ∧ (sendToolInputStep "call-1" 1 (.obj [("a", .num 1)])
        (sendToolInputStep "call-1" 1 (.obj [("a", .num 1)]) ⟨none, none⟩).1).2 = false
    ∧ (sendToolInputStep "call-1" 1 (.obj [("a", .num 1)]) ⟨none, none⟩).1.toolInputSent =
        some ("call-1" ++ ":" ++ toString 1)
    ∧ (sendToolInputStep "call-1" 1 (.obj [("a", .num 1)]) ⟨none, none⟩).1.lastSentProps =
        some (stringify (.obj [("a", .num 1)])) :=
  c5_input_idempotent_per_epoch "call-1" 1 (.obj [("a", .num 1)]) ⟨none, none⟩
    (by decide) (by decide)

/-- Counterexample for claim C2: The claim asserts that, for the tool-output
push as well, a payload identical to one already transmitted under the
previous `initCount` still transmits after `initCount` is incremented.
The code keys the output push only by the content hash
(`lastSentToolOutputKeyRef` does not include `initCount`): after a send at
`initCount = 1`, the same output at `initCount = 2` is suppressed. -/
theorem c2_counterexample :
    (sendToolOutputStep 1 (.obj [("structuredContent", .obj [("a", .num 1)])])
      none none).2 = true
    ∧ (sendToolOutputStep 2 (.obj [("structuredContent", .obj [("a", .num 1)])]) none
        (sendToolOutputStep 1 (.obj [("structuredContent", .obj [("a", .num 1)])])
          none none).1).2 = false := by
  constructor
  · decide
  · decide

/-- Claim C2 amended: The tool-input push never suppresses a send across
an `initCount` change: its dedupe key embeds `(toolCallId, initCount)`, so
re-sending a payload identical to one already transmitted under a
different non-zero `initCount` always transmits.  The tool-output push, by
contrast, dedupes purely by the content key of
`(structuredContent ?? toolOutput, customProps)`: once a payload has been
transmitted, re-sending the identical payload is suppressed at any later
`initCount`, including after an increment. -/
theorem c2_reload_invalidation_amended :
    (∀ (tid : String) (n m : Nat) (args : JSValue) (st : SendInputState),
      n ≠ 0 → m ≠ 0 → n ≠ m →
      (sendToolInputStep tid m args (sendToolInputStep tid n args st).1).2 = true)
    ∧ (∀ (n m : Nat) (out : JSValue) (cp : Option (List (String × String)))
        (k : Option String),
      (sendToolOutputStep n out cp k).2 = true → m ≠ 0 →
      (sendToolOutputStep m out cp (sendToolOutputStep n out cp k).1).2 = false) := by
  constructor
  · intro tid n m args st hn hm hnm
    have hkey := sendToolInputStep_key tid n args st hn
    generalize hS : (sendToolInputStep tid n args st).1 = S at hkey ⊢
    have hcond : ¬ (S.toolInputSent = some (tid ++ ":" ++ toString m)
        ∧ S.lastSentProps = some (stringify args)) := by
      intro hc
      have heq := hkey.symm.trans hc.1
      exact hnm (sentKey_injective tid (Option.some.inj heq))
    unfold sendToolInputStep
    rw [if_neg hm, if_neg hcond]
  · intro n m out cp k hsent hm
    simp only [sendToolOutputStep] at hsent
    by_cases hn : n = 0
    · rw [if_pos hn] at hsent
      simp at hsent
    rw [if_neg hn] at hsent
    by_cases htr : (!jsTruthy out) = true
    · rw [if_pos htr] at hsent
      simp at hsent
    rw [if_neg htr] at hsent
    by_cases hk : k = some (outputContentKey out cp)
    · rw [if_pos hk] at hsent
      simp at hsent
    have h1 : (sendToolOutputStep n out cp k).1 = some (outputContentKey out cp) := by
      simp only [sendToolOutputStep]
      rw [if_neg hn, if_neg htr, if_neg hk]
    rw [h1]
    simp only [sendToolOutputStep]
    rw [if_neg hm, if_neg htr]
    simp

/-- Witness for claim C2: the input push re-transmits across an `initCount`
increment (1 to 2); the output push, having sent at `initCount = 4`, skips
the identical payload at `initCount = 5`. -/
theorem c2_reload_invalidation_amended_witness :
    (sendToolInputStep "call-1" 2 (.obj [])
      (sendToolInputStep "call-1" 1 (.obj []) ⟨none, none⟩).1).2 = true
    ∧ (sendToolOutputStep 5 (.str "out") none
        (sendToolOutputStep 4 (.str "out") none none).1).2 = false :=
  ⟨c2_reload_invalidation_amended.1 "call-1" 1 2 (.obj []) ⟨none, none⟩
      (by decide) (by decide) (by decide),
   c2_reload_invalidation_amended.2 4 5 (.str "out") none none
      (by decide) (by decide)⟩

lemma mem_insertSet_self (x : String) (l : List String) : x ∈ insertSet x l := by
  unfold insertSet
  split
  · assumption
  · simp

lemma mem_insertSet_of_mem {x : String} (y : String) {l : List String} (h : x ∈ l) :
    x ∈ insertSet y l := by
  unfold insertSet
  split
  · exact h
  · simp [h]

lemma insertSet_nodup {x : String} {l : List String} (h : l.Nodup) :
    (insertSet x l).Nodup := by
  unfold insertSet
  split
  · exact h
  · next hx => simp [List.nodup_append, h, hx]

lemma setOfList_nodup (l : List String) : (setOfList l).Nodup := by
  suffices h : ∀ acc : List String, acc.Nodup →
      (l.foldl (fun acc x => insertSet x acc) acc).Nodup from h [] (by simp)
  induction l with
  | nil => intro acc h; simpa using h
  | cons a t ih => intro acc h; exact ih _ (insertSet_nodup h)

lemma stepViolation_cases (acc : List String × List String × List String)
    (v : CspViolation) :
    stepViolation acc v = acc
    ∨ (∃ o, stepViolation acc v = (insertSet o acc.1, acc.2.1, acc.2.2))
    ∨ (∃ o w, stepViolation acc v = (insertSet w (insertSet o acc.1), acc.2.1, acc.2.2))
    ∨ (∃ o, stepViolation acc v = (acc.1, insertSet o acc.2.1, acc.2.2))
    ∨ (∃ o, stepViolation acc v = (acc.1, acc.2.1, insertSet o acc.2.2)) := by
  simp only [stepViolation]
  split
  · exact Or.inl rfl
  · split
    · exact Or.inl rfl
    · split
      · exact Or.inl rfl
      · split
        · split
          · exact Or.inr (Or.inr (Or.inl ⟨_, _, rfl⟩))
          · split
            · exact Or.inr (Or.inr (Or.inl ⟨_, _, rfl⟩))
            · exact Or.inr (Or.inl ⟨_, rfl⟩)
        · split
          · exact Or.inr (Or.inr (Or.inr (Or.inl ⟨_, rfl⟩)))
          · split
            · exact Or.inr (Or.inr (Or.inr (Or.inr ⟨_, rfl⟩)))
            · exact Or.inl rfl

lemma stepViolation_mono (acc : List String × List String × List String)
    (v : CspViolation) :
    (∀ x, x ∈ acc.1 → x ∈ (stepViolation acc v).1)
    ∧ (∀ x, x ∈ acc.2.1 → x ∈ (stepViolation acc v).2.1)
    ∧ (∀ x, x ∈ acc.2.2 → x ∈ (stepViolation acc v).2.2) := by
  rcases stepViolation_cases acc v with h | ⟨o, h⟩ | ⟨o, w, h⟩ | ⟨o, h⟩ | ⟨o, h⟩ <;>
    rw [h]
  · exact ⟨fun x hx => hx, fun x hx => hx, fun x hx => hx⟩
  · exact ⟨fun x hx => mem_insertSet_of_mem o hx, fun x hx => hx, fun x hx => hx⟩
  · exact ⟨fun x hx => mem_insertSet_of_mem w (mem_insertSet_of_mem o hx),
      fun x hx => hx, fun x hx => hx⟩
  · exact ⟨fun x hx => hx, fun x hx => mem_insertSet_of_mem o hx, fun x hx => hx⟩
  · exact ⟨fun x hx => hx, fun x hx => hx, fun x hx => mem_insertSet_of_mem o hx⟩

lemma stepViolation_nodup (acc : List String × List String × List String)
    (v : CspViolation) (h1 : acc.1.Nodup) (h2 : acc.2.1.Nodup) (h3 : acc.2.2.Nodup) :
    (stepViolation acc v).1.Nodup
    ∧ (stepViolation acc v).2.1.Nodup
    ∧ (stepViolation acc v).2.2.Nodup := by
  rcases stepViolation_cases acc v with h | ⟨o, h⟩ | ⟨o, w, h⟩ | ⟨o, h⟩ | ⟨o, h⟩ <;>
    rw [h]
  · exact ⟨h1, h2, h3⟩
  · exact ⟨insertSet_nodup h1, h2, h3⟩
  · exact ⟨insertSet_nodup (insertSet_nodup h1), h2, h3⟩
  · exact ⟨h1, insertSet_nodup h2, h3⟩
  · exact ⟨h1, h2, insertSet_nodup h3⟩

lemma foldl_stepViolation_mono (vs : List CspViolation) :
    ∀ acc x, x ∈ acc.1 → x ∈ (vs.foldl stepViolation acc).1 := by
  induction vs with
  | nil => intro acc x hx; exact hx
  | cons v vs ih =>
    intro acc x hx
    exact ih (stepViolation acc v) x ((stepViolation_mono acc v).1 x hx)

lemma foldl_stepViolation_nodup (vs : List CspViolation) :
    ∀ acc : List String × List String × List String,
      acc.1.Nodup → acc.2.1.Nodup → acc.2.2.Nodup →
      (vs.foldl stepViolation acc).1.Nodup
      ∧ (vs.foldl stepViolation acc).2.1.Nodup
      ∧ (vs.foldl stepViolation acc).2.2.Nodup := by
  induction vs with
  | nil => intro acc h1 h2 h3; exact ⟨h1, h2, h3⟩
  | cons v vs ih =>
    intro acc h1 h2 h3
    obtain ⟨g1, g2, g3⟩ := stepViolation_nodup acc v h1 h2 h3
    exact ih (stepViolation acc v) g1 g2 g3

lemma stepViolation_connect_api (acc : List String × List String × List String)
    (v : CspViolation) (heff : v.effectiveDirective = "connect-src")
    (huri : v.blockedUri = "https://api.example.com/x") :
    "https://api.example.com" ∈ (stepViolation acc v).1
    ∧ "wss://api.example.com" ∈ (stepViolation acc v).1 := by
  have htrim : jsTrim v.blockedUri = "https://api.example.com/x" := by
    rw [huri]; decide
  have hskip : isSkippableViolation v = false := by
    unfold isSkippableViolation
    rw [htrim]
    decide
  have hparse : parseOrigin (jsTrim v.blockedUri) = some "https://api.example.com" := by
    rw [htrim]; decide
  have hdir : jsToLower (jsOrStr v.effectiveDirective v.directive) = "connect-src" := by
    rw [heff]
    unfold jsOrStr
    rw [if_neg (by decide : ¬ ("connect-src" : String) = "")]
    decide
  have hsw1 : strStartsWith "https://api.example.com" "http://" = false := by decide
  have hsw2 : strStartsWith "https://api.example.com" "https://" = true := by decide
  have hdrop : ("wss://" ++ String.mk
      (("https://api.example.com" : String).data.drop 8)) = "wss://api.example.com" := by
    decide
  simp only [stepViolation, hskip, Bool.false_eq_true, if_false, hparse, hdir, hsw1,
    hsw2, hdrop]
  simp only [if_neg (by decide : ¬ ("https://api.example.com" : String) = ""),
    if_pos (rfl : ("connect-src" : String) = "connect-src")]
  constructor
  · exact mem_insertSet_of_mem _ (mem_insertSet_self _ _)
  · exact mem_insertSet_self _ _

/-- Claim C9: The suggested-fix computation: a violation with effective
directive connect-src and blocked URI https://api.example.com/x
contributes the origin https://api.example.com and the synthesized
wss://api.example.com to the connect result; violations with empty,
"(inline)", blob: or data: blocked URIs are skipped (they contribute
nothing); and every output list is duplicate-free and lexicographically
sorted. -/
theorem c9_suggested_fix (violations : List CspViolation)
    (cur : Option WidgetDeclaredCsp) :
    (∀ v ∈ violations, v.effectiveDirective = "connect-src" →
      v.blockedUri = "https://api.example.com/x" →
      "https://api.example.com" ∈ (computeSuggestedFix violations cur).connectDomains
      ∧ "wss://api.example.com" ∈ (computeSuggestedFix violations cur).connectDomains)
    ∧ (∀ (v : CspViolation) (rest : List CspViolation),
        isSkippableViolation v = true →
        computeSuggestedFix (v :: rest) cur = computeSuggestedFix rest cur)
    ∧ ((computeSuggestedFix violations cur).connectDomains.Sorted (· ≤ ·)
      ∧ (computeSuggestedFix violations cur).connectDomains.Nodup
      ∧ (computeSuggestedFix violations cur).resourceDomains.Sorted (· ≤ ·)
      ∧ (computeSuggestedFix violations cur).resourceDomains.Nodup
      ∧ ∀ f, (computeSuggestedFix violations cur).frameDomains = some f →
          f.Sorted (· ≤ ·) ∧ f.Nodup) := by
  have hconn : (computeSuggestedFix violations cur).connectDomains =
      sortStrings ((violations.foldl stepViolation (suggestInit cur)).1) := rfl
  have hres : (computeSuggestedFix violations cur).resourceDomains =
      sortStrings ((violations.foldl stepViolation (suggestInit cur)).2.1) := rfl
  have hframe : (computeSuggestedFix violations cur).frameDomains =
      if ((violations.foldl stepViolation (suggestInit cur)).2.2).length > 0 then
        some (sortStrings ((violations.foldl stepViolation (suggestInit cur)).2.2))
      else none := rfl
  obtain ⟨n1, n2, n3⟩ := foldl_stepViolation_nodup violations (suggestInit cur)
    (setOfList_nodup _) (setOfList_nodup _) (setOfList_nodup _)
  refine ⟨?_, ?_, ?_, ?_, ?_, ?_, ?_⟩
  · intro v hv heff huri
    obtain ⟨s, t, hst⟩ := List.append_of_mem hv
    subst hst
    rw [hconn]
    have hadd := stepViolation_connect_api (s.foldl stepViolation (suggestInit cur))
      v heff huri
    have h1 : "https://api.example.com" ∈
        ((s ++ v :: t).foldl stepViolation (suggestInit cur)).1 := by
      rw [List.foldl_append, List.foldl_cons]
      exact foldl_stepViolation_mono t _ _ hadd.1
    have h2 : "wss://api.example.com" ∈
        ((s ++ v :: t).foldl stepViolation (suggestInit cur)).1 := by
      rw [List.foldl_append, List.foldl_cons]
      exact foldl_stepViolation_mono t _ _ hadd.2
    exact ⟨(List.perm_insertionSort _ _).mem_iff.mpr h1,
      (List.perm_insertionSort _ _).mem_iff.mpr h2⟩
  · intro v rest hskip
    have hstep : stepViolation (suggestInit cur) v = suggestInit cur := by
      simp [stepViolation, hskip]
    unfold computeSuggestedFix
    simp only [List.foldl_cons, hstep]
  · rw [hconn]
    exact List.sorted_insertionSort _ _
  · rw [hconn]
    exact ((List.perm_insertionSort _ _).nodup_iff).mpr n1
  · rw [hres]
    exact List.sorted_insertionSort _ _
  · rw [hres]
    exact ((List.perm_insertionSort _ _).nodup_iff).mpr n2
  · intro f hf
    rw [hframe] at hf
    split at hf
    · injection hf with hf
      subst hf
      exact ⟨List.sorted_insertionSort _ _,
        ((List.perm_insertionSort _ _).nodup_iff).mpr n3⟩
    · exact absurd hf (by simp)

/-- Witness for claim C9: a concrete violation list with a connect-src hit, a
skippable data: violation, and a frame-src hit, against an absent declared
allowlist. -/
theorem c9_suggested_fix_witness :
    ("https://api.example.com" ∈ (computeSuggestedFix
        [⟨"", "connect-src", "https://api.example.com/x", none, none, none, none, 0⟩,
         ⟨"img-src", "img-src", "data:image/png", none, none, none, none, 0⟩,
         ⟨"", "frame-src", "https://frames.example.com/a", none, none, none, none, 0⟩]
        none).connectDomains
      ∧ "wss://api.example.com" ∈ (computeSuggestedFix
        [⟨"", "connect-src", "https://api.example.com/x", none, none, none, none, 0⟩,
         ⟨"img-src", "img-src", "data:image/png", none, none, none, none, 0⟩,
         ⟨"", "frame-src", "https://frames.example.com/a", none, none, none, none, 0⟩]
        none).connectDomains)
    ∧ computeSuggestedFix
        [⟨"img-src", "img-src", "data:image/png", none, none, none, none, 0⟩] none =
      computeSuggestedFix [] none
    ∧ (["https://frames.example.com"].Sorted (· ≤ ·)
      ∧ ["https://frames.example.com"].Nodup) :=
  ⟨(c9_suggested_fix
      [⟨"", "connect-src", "https://api.example.com/x", none, none, none, none, 0⟩,
       ⟨"img-src", "img-src", "data:image/png", none, none, none, none, 0⟩,
       ⟨"", "frame-src", "https://frames.example.com/a", none, none, none, none, 0⟩]
      none).1
      ⟨"", "connect-src", "https://api.example.com/x", none, none, none, none, 0⟩
      (by simp) rfl rfl,
   (c9_suggested_fix [] none).2.1
      ⟨"img-src", "img-src", "data:image/png", none, none, none, none, 0⟩ []
      (by decide),
   (c9_suggested_fix
      [⟨"", "connect-src", "https://api.example.com/x", none, none, none, none, 0⟩,
       ⟨"img-src", "img-src", "data:image/png", none, none, none, none, 0⟩,
       ⟨"", "frame-src", "https://frames.example.com/a", none, none, none, none, 0⟩]
      none).2.2.2.2.2.2 ["https://frames.example.com"] (by decide)⟩

end Inspector
